import Mathlib

/-!
Verification of the hooman event dispatch pipeline
(`apps/backend/src/events/event-router.ts`, `events/normalize.ts`,
`lib/schedule/reload-flag.ts`, `scheduling/schedule-service.ts`).

The TypeScript code is shallowly embedded: loosely typed JavaScript values
become the inductive `JVal`; the module-level mutable state of the router
(dedup set, in-memory queue, processing flag) becomes an explicit
`RouterState` threaded through pure transition functions; `randomUUID()` and
`new Date().toISOString()` become explicit parameters; the kill switch
(`getKillSwitchEnabled()`) becomes an explicit boolean argument.
-/

/-- A JavaScript runtime value, as far as the pipeline inspects payloads:
`null`, booleans, numbers (modelled as integers; no claim depends on float
behaviour), strings, arrays and plain objects (field list in insertion
order, as JavaScript preserves it). -/
inductive JVal where
  | null : JVal
  | bool (b : Bool) : JVal
  | num (n : Int) : JVal
  | str (s : String) : JVal
  | arr (xs : List JVal) : JVal
  | obj (fields : List (String × JVal)) : JVal

/-- An open object (`Record<string, unknown>`): field list in insertion order. -/
abbrev JObj := List (String × JVal)

/-- Property access `o[k]`: first binding of `k`, as a JS object has unique keys
and the pipeline's payloads are object literals. `none` = `undefined`. -/
def jGet (o : JObj) (k : String) : Option JVal :=
  match o with
  | [] => none
  | (k', v) :: rest => if k' = k then some v else jGet rest k

/-- Test `typeof v === "string"`. -/
def jIsString : Option JVal → Bool
  | some (JVal.str _) => true
  | _ => false

/-- JS truthiness of a value (`undefined` handled by the caller). -/
def jTruthy : JVal → Bool
  | JVal.null => false
  | JVal.bool b => b
  | JVal.num n => n != 0
  | JVal.str s => s ≠ ""
  | JVal.arr _ => true
  | JVal.obj _ => true

/-- Test `v && typeof v === "object"`: truthy and of JS type "object"
(arrays included; `null` is excluded by truthiness). -/
def jIsTruthyObject : Option JVal → Bool
  | some (JVal.obj _) => true
  | some (JVal.arr _) => true
  | _ => false

/-- JSON string escaping for one character (quote and backslash; the pipeline
never feeds control characters through the dedup key in any claim). -/
def jsEscapeChar (c : Char) : String :=
  if c = '"' then "\\\"" else if c = '\\' then "\\\\" else String.singleton c

/-- Serialization `JSON.stringify` of a string value. -/
def jsQuote (s : String) : String :=
  "\"" ++ String.join (s.toList.map jsEscapeChar) ++ "\""

mutual

/-- Serialization `JSON.stringify`: keys serialize in insertion order (stable for our
object representation). -/
def jsonStr : JVal → String
  | JVal.null => "null"
  | JVal.bool true => "true"
  | JVal.bool false => "false"
  | JVal.num n => toString n
  | JVal.str s => jsQuote s
  | JVal.arr xs => "[" ++ String.intercalate "," (jsonStrList xs) ++ "]"
  | JVal.obj fs => "\x7b" ++ String.intercalate "," (jsonStrFields fs) ++ "\x7d"

def jsonStrList : List JVal → List String
  | [] => []
  | v :: rest => jsonStr v :: jsonStrList rest

def jsonStrFields : List (String × JVal) → List String
  | [] => []
  | (k, v) :: rest => (jsQuote k ++ ":" ++ jsonStr v) :: jsonStrFields rest

end

/-- Type `RawDispatchInput` (`types.ts`): producer-supplied dispatch request. -/
structure RawDispatchInput where
  source : String
  type : String
  payload : JObj
  priority : Option Int := none

/-- Type `NormalizedPayload` (`types.ts`), as built by `normalizePayload`:
a tagged variant. Optional object fields that the code spreads in only when
present are `Option`s; elements kept by runtime `typeof` filters stay as the
original `JVal`s (the code casts, it does not rebuild them). -/
inductive NormalizedPayload where
  | message (text userId : String) (attachmentContents : Option (List JVal))
      (attachments : Option (List String)) (channelMeta : Option JVal)
      (sourceMessageType : Option String) : NormalizedPayload
  | scheduled_task (intent : String) (context : JVal)
      (execute_at : Option String) (cron : Option String) : NormalizedPayload
  | integration_event (integrationId originalType : String)
      (payload : JVal) : NormalizedPayload
  | internal (data : JObj) : NormalizedPayload

/-- Type `NormalizedEvent` (`types.ts`): the canonical unit flowing through the
pipeline. -/
structure NormalizedEvent where
  id : String
  source : String
  type : String
  payload : NormalizedPayload
  timestamp : String
  priority : Int

/-- The `DEFAULT_PRIORITY` record from `normalize.ts`. -/
def DEFAULT_PRIORITY (t : String) : Option Int :=
  if t = "message.sent" then some 10
  else if t = "task.scheduled" then some 5
  else if t = "internal" then some 8
  else none

/-- Function `normalizePriority` (`normalize.ts`): explicit priority wins, else the
per-type default, else 5. -/
def normalizePriority (raw : RawDispatchInput) : Int :=
  match raw.priority with
  | some p => p
  | none => (DEFAULT_PRIORITY raw.type).getD 5

/-- The `attachmentContents` element filter: keeps elements with string
`name`, `contentType` and `data` (`a?.name` etc. in the source). -/
def isAttachmentContent (v : JVal) : Bool :=
  match v with
  | JVal.obj o =>
      jIsString (jGet o "name") && jIsString (jGet o "contentType") &&
        jIsString (jGet o "data")
  | _ => false

/-- The `channelMeta` guard in `normalizePayload`: truthy object whose
`channel` is truthy and whose `directness` is "direct" or "neutral". -/
def isValidChannelMeta (v : JVal) : Bool :=
  match v with
  | JVal.obj o =>
      (match jGet o "channel" with
       | some c => jTruthy c
       | none => false) &&
      (match jGet o "directness" with
       | some (JVal.str s) => s = "direct" || s = "neutral"
       | _ => false)
  | _ => false

/-- Function `normalizePayload` (`normalize.ts`): raw payload map → canonical tagged
payload. Wrong-typed fields degrade to defaults field by field; unknown
types fall back to the `internal` variant. -/
def normalizePayload (source : String) (type : String) (payload : JObj) :
    NormalizedPayload :=
  if type = "message.sent" then
    let text := match jGet payload "text" with
      | some (JVal.str s) => s
      | _ => ""
    let userId := match jGet payload "userId" with
      | some (JVal.str s) => s
      | _ => "default"
    let attachmentContents := match jGet payload "attachmentContents" with
      | some (JVal.arr xs) =>
          let l := xs.filter isAttachmentContent
          if l.isEmpty then none else some l
      | _ => none
    let attachments := match jGet payload "attachments" with
      | some (JVal.arr xs) =>
          let l := xs.filterMap (fun v => match v with
            | JVal.str s => some s
            | _ => none)
          if l.isEmpty then none else some l
      | _ => none
    let channelMeta := match jGet payload "channelMeta" with
      | some v => if isValidChannelMeta v then some v else none
      | none => none
    let sourceMessageType := match jGet payload "sourceMessageType" with
      | some (JVal.str s) => if s = "audio" then some "audio" else none
      | _ => none
    NormalizedPayload.message text userId attachmentContents attachments
      channelMeta sourceMessageType
  else if type = "task.scheduled" then
    let execute_at := match jGet payload "execute_at" with
      | some (JVal.str s) => if s.trim ≠ "" then some s.trim else none
      | _ => none
    let intent := match jGet payload "intent" with
      | some (JVal.str s) => s
      | _ => ""
    let context := match jGet payload "context" with
      | some v => if jIsTruthyObject (some v) then v else JVal.obj []
      | none => JVal.obj []
    let cron := match jGet payload "cron" with
      | some (JVal.str s) => if s.trim ≠ "" then some s.trim else none
      | _ => none
    NormalizedPayload.scheduled_task intent context execute_at cron
  else if type = "chat.turn_completed" then
    NormalizedPayload.internal payload
  else if source = "mcp" && jIsString (jGet payload "integrationId") &&
      jIsString (jGet payload "originalType") then
    let integrationId := match jGet payload "integrationId" with
      | some (JVal.str s) => s
      | _ => ""
    let originalType := match jGet payload "originalType" with
      | some (JVal.str s) => s
      | _ => ""
    let inner := match jGet payload "payload" with
      | some JVal.null => JVal.obj []
      | some v => v
      | none => JVal.obj []
    NormalizedPayload.integration_event integrationId originalType inner
  else
    NormalizedPayload.internal payload

/-- Serialization `JSON.stringify` of a normalized payload, mirroring the object literal
built by `normalizePayload` (so `kind` first, then the fields in spread
order, optional fields only when present). -/
def payloadJson : NormalizedPayload → String
  | NormalizedPayload.message text userId attachmentContents attachments
      channelMeta sourceMessageType =>
      "\x7b" ++ jsQuote "kind" ++ ":" ++ jsQuote "message" ++
      "," ++ jsQuote "text" ++ ":" ++ jsQuote text ++
      "," ++ jsQuote "userId" ++ ":" ++ jsQuote userId ++
      (match attachmentContents with
       | some l => "," ++ jsQuote "attachmentContents" ++ ":" ++
           jsonStr (JVal.arr l)
       | none => "") ++
      (match attachments with
       | some l => "," ++ jsQuote "attachments" ++ ":" ++
           jsonStr (JVal.arr (l.map JVal.str))
       | none => "") ++
      (match channelMeta with
       | some v => "," ++ jsQuote "channelMeta" ++ ":" ++ jsonStr v
       | none => "") ++
      (match sourceMessageType with
       | some s => "," ++ jsQuote "sourceMessageType" ++ ":" ++ jsQuote s
       | none => "") ++
      "\x7d"
  | NormalizedPayload.scheduled_task intent context execute_at cron =>
      "\x7b" ++ jsQuote "kind" ++ ":" ++ jsQuote "scheduled_task" ++
      "," ++ jsQuote "intent" ++ ":" ++ jsQuote intent ++
      "," ++ jsQuote "context" ++ ":" ++ jsonStr context ++
      (match execute_at with
       | some s => "," ++ jsQuote "execute_at" ++ ":" ++ jsQuote s
       | none => "") ++
      (match cron with
       | some s => "," ++ jsQuote "cron" ++ ":" ++ jsQuote s
       | none => "") ++
      "\x7d"
  | NormalizedPayload.integration_event integrationId originalType payload =>
      "\x7b" ++ jsQuote "kind" ++ ":" ++ jsQuote "integration_event" ++
      "," ++ jsQuote "integrationId" ++ ":" ++ jsQuote integrationId ++
      "," ++ jsQuote "originalType" ++ ":" ++ jsQuote originalType ++
      "," ++ jsQuote "payload" ++ ":" ++ jsonStr payload ++
      "\x7d"
  | NormalizedPayload.internal data =>
      "\x7b" ++ jsQuote "kind" ++ ":" ++ jsQuote "internal" ++
      "," ++ jsQuote "data" ++ ":" ++ jsonStr (JVal.obj data) ++
      "\x7d"

/-- Function `eventKey` (`normalize.ts`):
`` `${e.source}:${e.type}:${JSON.stringify(e.payload)}` `` — note the payload
here is the event's (normalized) payload. -/
def eventKey (e : NormalizedEvent) : String :=
  e.source ++ ":" ++ e.type ++ ":" ++ payloadJson e.payload

/-- Function `createNormalizedEvent` (`normalize.ts`). The nondeterministic inputs
`randomUUID()` and the clock are explicit parameters: `freshId` is the value
`randomUUID()` would return on this call (used unless a correlation id is
supplied), `now` the timestamp. -/
def createNormalizedEvent (raw : RawDispatchInput)
    (correlationId : Option String) (freshId : String) (now : String) :
    NormalizedEvent :=
  { id := correlationId.getD freshId
    source := raw.source
    type := raw.type
    payload := normalizePayload raw.source raw.type raw.payload
    timestamp := now
    priority := normalizePriority raw }

/-- A registered event handler. `run` returns the ambient handler state after
the call together with `true` when the handler threw or rejected (any state
changes made before the throw persist, as in JavaScript). -/
structure Handler (S : Type) where
  run : NormalizedEvent → S → S × Bool

/-- The `for … of this.handlers` loop body of `runHandlersForEvent`: each
handler runs inside `try/catch`, so a throw (the `Bool`) is logged and
discarded and the loop continues with the next handler. -/
def runHandlerList {S : Type} (handlers : List (Handler S))
    (e : NormalizedEvent) (s : S) : S :=
  match handlers with
  | [] => s
  | h :: rest => runHandlerList rest e (h.run e s).1

/-- The mutable state of an `EventRouter` instance together with the
module-level `seenEventKeys` set, over an ambient handler-state type `S`.
`runLog` is a ghost observation: the events for which the handler loop of
`runHandlersForEvent` actually ran, in order. `adapter` is
`null` (local mode) or the list of events handed to `queueAdapter.add`. -/
structure RouterState (S : Type) where
  handlers : List (Handler S)
  hstate : S
  queue : List NormalizedEvent
  seen : List String
  processing : Bool
  runLog : List NormalizedEvent
  adapter : Option (List NormalizedEvent)

/-- Method `EventRouter.runHandlersForEvent`: returns unchanged when the kill
switch is engaged, otherwise runs every registered handler in order. `ks`
is the value `getKillSwitchEnabled()` reads. -/
def runHandlersForEvent {S : Type} (ks : Bool) (st : RouterState S)
    (e : NormalizedEvent) : RouterState S :=
  if ks then st
  else { st with
         hstate := runHandlerList st.handlers e st.hstate
         runLog := st.runLog ++ [e] }

theorem runHandlersForEvent_queue {S : Type} (ks : Bool) (st : RouterState S)
    (e : NormalizedEvent) : (runHandlersForEvent ks st e).queue = st.queue := by
  unfold runHandlersForEvent
  split <;> rfl

/-- Stable insertion of an event into a descending-priority list: the event
goes after every earlier event of greater or equal priority. -/
def insertDesc (e : NormalizedEvent) : List NormalizedEvent →
    List NormalizedEvent
  | [] => [e]
  | x :: xs =>
      if e.priority ≤ x.priority then x :: insertDesc e xs else e :: x :: xs

/-- The statement `this.queue.sort((a, b) => b.priority - a.priority)`:
`Array.prototype.sort` is a stable sort, and with this comparator it orders
by descending priority; stable insertion sort computes exactly that. -/
def sortDesc (q : List NormalizedEvent) : List NormalizedEvent :=
  q.foldl (fun acc e => insertDesc e acc) []

/-- The `while` loop of `processQueue`, with fuel: each iteration re-checks
the kill switch, shifts the head of the queue and runs the handlers for it.
`runHandlersForEvent` never touches the queue, so `st.queue.length` fuel is
enough for the loop to run to emptiness. -/
def drainGo {S : Type} (ks : Bool) : Nat → RouterState S → RouterState S
  | 0, st => st
  | Nat.succ n, st =>
      match st.queue with
      | [] => st
      | e :: rest =>
          if ks then st
          else drainGo ks n (runHandlersForEvent ks { st with queue := rest } e)

/-- Method `EventRouter.processQueue`: no-op while already processing or when the
queue is empty or the kill switch is engaged; otherwise drains the queue one
event at a time under the `processing` flag. -/
def processQueue {S : Type} (ks : Bool) (st : RouterState S) : RouterState S :=
  if st.processing || st.queue.isEmpty then st
  else if ks then st
  else
    let st' := drainGo ks st.queue.length { st with processing := true }
    { st' with processing := false }

/-- Constant `DEDUP_TTL_MS` (`event-router.ts`). Key expiry is a `setTimeout` this
much later; "within the dedup window" in the claims means no expiry fires
between the dispatches, which is how the model composes consecutive
dispatches. -/
def DEDUP_TTL_MS : Nat := 60000

/-- Method `EventRouter.dispatch`: normalize (with explicit fresh id and clock),
dedup on `eventKey`, then enqueue to the adapter (distributed mode) or
push + re-sort + process in memory (local mode). Returns the new state and
the id handed back to the caller. -/
def dispatch {S : Type} (ks : Bool) (st : RouterState S)
    (raw : RawDispatchInput) (correlationId : Option String)
    (freshId : String) (now : String) : RouterState S × String :=
  let event := createNormalizedEvent raw correlationId freshId now
  let key := eventKey event
  if st.seen.contains key then (st, event.id)
  else
    let st1 := { st with seen := st.seen ++ [key] }
    match st1.adapter with
    | some delivered =>
        ({ st1 with adapter := some (delivered ++ [event]) }, event.id)
    | none =>
        let st2 := { st1 with queue := sortDesc (st1.queue ++ [event]) }
        (processQueue ks st2, event.id)

/-- One observable action of the reload watcher's poll callback, used to
state in which order the flag clear and the reload callback happen. -/
inductive PollAction where
  | clearFlag : PollAction
  | invokeReload : PollAction
deriving DecidableEq

/-- The reload flag store (`lib/schedule/reload-flag.ts`): the Redis key
`hooman:workers:reload` is either present with value "1" (`flag = true`) or
absent. `reloadCount` is a ghost counter of `onReload` invocations. -/
structure ReloadState where
  flag : Bool
  reloadCount : Nat

/-- Function `setReloadFlag`: `redis.set(REDIS_KEY, "1")`. (The early returns for an
empty URL or uninitialized client never reach the store and are outside the
claims.) -/
def setReloadFlag (st : ReloadState) : ReloadState := { st with flag := true }

/-- One tick of the `setInterval` poll in `initReloadWatch`: read the key;
if it is "1", delete it and then invoke `onReload`. The returned action list
records what happened, in program order. -/
def reloadPollTick (st : ReloadState) : ReloadState × List PollAction :=
  if st.flag then
    ({ flag := false, reloadCount := st.reloadCount + 1 },
     [PollAction.clearFlag, PollAction.invokeReload])
  else (st, [])

/-- Type `ScheduledTask` (`data/scheduler.ts`): `execute_at` optional (one-shot),
`cron` optional (recurring). -/
structure ScheduledTask where
  id : String
  execute_at : Option String
  intent : String
  context : JObj
  cron : Option String

/-- Type `Omit<ScheduledTask, "id">`: the argument of `ScheduleService.schedule`. -/
structure ScheduledTaskInput where
  execute_at : Option String
  intent : String
  context : JObj
  cron : Option String

/-- State touched by the schedule service: the persisted store
(`ScheduleStore`, append via `store.add`) and whether the "schedule" reload
flag has been set. -/
structure ScheduleState where
  store : List ScheduledTask
  reloadFlag : Bool

/-- The guard `task.cron && !validateCron(task.cron)` of
`ScheduleService.schedule`: a present, non-empty (truthy) cron string that
the validator rejects. `validate` abstracts `validateCron`, whose body wraps
the external node-schedule library. -/
def cronInvalid (validate : String → Bool) (cron : Option String) : Bool :=
  match cron with
  | some c => c ≠ "" && !(validate c)
  | none => false

/-- Method `ScheduleService.schedule` (`scheduling/schedule-service.ts`): reject an
invalid cron, else persist the task under a fresh UUID (`freshId` is the
value `randomUUID()` returns), set the reload flag
(`setReloadFlag(env.REDIS_URL, "schedule")`) and return the new id. -/
def scheduleServiceSchedule (validate : String → Bool) (st : ScheduleState)
    (task : ScheduledTaskInput) (freshId : String) :
    Except String (ScheduleState × String) :=
  if cronInvalid validate task.cron then
    Except.error "Invalid cron expression."
  else
    Except.ok
      ({ store := st.store ++
          [{ id := freshId, execute_at := task.execute_at,
             intent := task.intent, context := task.context,
             cron := task.cron }],
         reloadFlag := true }, freshId)

/-- The `kind` discriminant of a normalized payload. -/
def payloadKind : NormalizedPayload → String
  | NormalizedPayload.message _ _ _ _ _ _ => "message"
  | NormalizedPayload.scheduled_task _ _ _ _ => "scheduled_task"
  | NormalizedPayload.integration_event _ _ _ => "integration_event"
  | NormalizedPayload.internal _ => "internal"

/-- The `text` field of a message payload. -/
def messageText : NormalizedPayload → Option String
  | NormalizedPayload.message t _ _ _ _ _ => some t
  | _ => none

/-- The `userId` field of a message payload. -/
def messageUserId : NormalizedPayload → Option String
  | NormalizedPayload.message _ u _ _ _ _ => some u
  | _ => none

/-- Handler that increments a `Nat` counter and never throws (the spec's
"handler that increments a counter"). -/
def incrHandler : Handler Nat := ⟨fun _ n => (n + 1, false)⟩

/-- Handler that appends its index `i` to a log and then throws iff
`thr`; used to observe invocation order and the effect of throwing. -/
def loggingHandler (i : Nat) (thr : Bool) : Handler (List Nat) :=
  ⟨fun _ log => (log ++ [i], thr)⟩

/-- Descending-priority sortedness: every later event has priority at most
every earlier one's. -/
def PriorityDesc (q : List NormalizedEvent) : Prop :=
  List.Pairwise (fun a b => b.priority ≤ a.priority) q

theorem runHandlersForEvent_seen {S : Type} (ks : Bool) (st : RouterState S)
    (e : NormalizedEvent) : (runHandlersForEvent ks st e).seen = st.seen := by
  unfold runHandlersForEvent
  split <;> rfl

theorem runHandlersForEvent_adapter {S : Type} (ks : Bool) (st : RouterState S)
    (e : NormalizedEvent) :
    (runHandlersForEvent ks st e).adapter = st.adapter := by
  unfold runHandlersForEvent
  split <;> rfl

theorem drainGo_seen {S : Type} (ks : Bool) (n : Nat) (st : RouterState S) :
    (drainGo ks n st).seen = st.seen := by
  induction n generalizing st with
  | zero => rfl
  | succ n ih =>
      unfold drainGo
      cases hq : st.queue with
      | nil => rfl
      | cons e rest =>
          cases ks with
          | true => simp
          | false =>
              simp only [Bool.false_eq_true, if_false]
              rw [ih, runHandlersForEvent_seen]

theorem drainGo_adapter {S : Type} (ks : Bool) (n : Nat) (st : RouterState S) :
    (drainGo ks n st).adapter = st.adapter := by
  induction n generalizing st with
  | zero => rfl
  | succ n ih =>
      unfold drainGo
      cases hq : st.queue with
      | nil => rfl
      | cons e rest =>
          cases ks with
          | true => simp
          | false =>
              simp only [Bool.false_eq_true, if_false]
              rw [ih, runHandlersForEvent_adapter]

theorem processQueue_seen {S : Type} (ks : Bool) (st : RouterState S) :
    (processQueue ks st).seen = st.seen := by
  unfold processQueue
  split
  · rfl
  · split
    · rfl
    · exact drainGo_seen ks st.queue.length { st with processing := true }

theorem processQueue_adapter {S : Type} (ks : Bool) (st : RouterState S) :
    (processQueue ks st).adapter = st.adapter := by
  unfold processQueue
  split
  · rfl
  · split
    · rfl
    · exact drainGo_adapter ks st.queue.length { st with processing := true }

theorem drainGo_false_runLog {S : Type} (n : Nat) (st : RouterState S)
    (h : st.queue.length ≤ n) :
    (drainGo false n st).runLog = st.runLog ++ st.queue := by
  induction n generalizing st with
  | zero =>
      have : st.queue = [] := List.length_eq_zero.mp (Nat.le_zero.mp h)
      simp [drainGo, this]
  | succ n ih =>
      unfold drainGo
      cases hq : st.queue with
      | nil => simp
      | cons e rest =>
          simp only [Bool.false_eq_true, if_false]
          have hlen :
              (runHandlersForEvent false { st with queue := rest } e).queue.length
                ≤ n := by
            rw [runHandlersForEvent_queue]
            have hh := h
            rw [hq] at hh
            simp only [List.length_cons] at hh
            show rest.length ≤ n
            omega
          rw [ih _ hlen]
          simp [runHandlersForEvent]

theorem mem_insertDesc {e y : NormalizedEvent} {l : List NormalizedEvent} :
    y ∈ insertDesc e l ↔ y = e ∨ y ∈ l := by
  induction l with
  | nil => simp [insertDesc]
  | cons x xs ih =>
      unfold insertDesc
      by_cases h : e.priority ≤ x.priority
      · simp only [h, if_true, List.mem_cons, ih]
        try tauto
      · simp only [h, if_false, List.mem_cons]
        try tauto

theorem insertDesc_sorted (e : NormalizedEvent) (l : List NormalizedEvent)
    (h : PriorityDesc l) : PriorityDesc (insertDesc e l) := by
  induction l with
  | nil => simp [insertDesc, PriorityDesc]
  | cons x xs ih =>
      rw [PriorityDesc, List.pairwise_cons] at h
      obtain ⟨hx, hxs⟩ := h
      unfold insertDesc
      by_cases hc : e.priority ≤ x.priority
      · simp only [hc, if_true]
        rw [PriorityDesc, List.pairwise_cons]
        refine ⟨fun y hy => ?_, ih hxs⟩
        rcases mem_insertDesc.mp hy with rfl | hmem
        · exact hc
        · exact hx y hmem
      · simp only [hc, if_false]
        rw [PriorityDesc, List.pairwise_cons]
        refine ⟨fun y hy => ?_, List.Pairwise.cons hx hxs⟩
        rcases List.mem_cons.mp hy with rfl | hmem
        · exact le_of_not_le hc
        · exact le_trans (hx y hmem) (le_of_not_le hc)

theorem foldl_insertDesc_sorted (l acc : List NormalizedEvent)
    (h : PriorityDesc acc) :
    PriorityDesc (List.foldl (fun a e => insertDesc e a) acc l) := by
  induction l generalizing acc with
  | nil => exact h
  | cons x xs ih => exact ih _ (insertDesc_sorted x acc h)

theorem sortDesc_sorted (l : List NormalizedEvent) : PriorityDesc (sortDesc l) :=
  foldl_insertDesc_sorted l [] (List.Pairwise.nil)

theorem runHandlerList_replicate_incr (n c : Nat) (e : NormalizedEvent) :
    runHandlerList (List.replicate n incrHandler) e c = c + n := by
  induction n generalizing c with
  | zero => rfl
  | succ n ih =>
      rw [List.replicate_succ]
      have hstep : runHandlerList (incrHandler :: List.replicate n incrHandler) e c
          = runHandlerList (List.replicate n incrHandler) e (c + 1) := rfl
      rw [hstep, ih]
      omega

/-- C6: the normalized event's priority equals the explicitly supplied
priority when present; otherwise it is determined by type:
"message.sent" → 10, "internal" → 8, "task.scheduled" → 5, anything
else → 5 (and `createNormalizedEvent` carries this priority verbatim). -/
theorem priority_explicit_or_type_default (raw : RawDispatchInput) :
    (∀ p : Int, raw.priority = some p → normalizePriority raw = p) ∧
    (raw.priority = none →
      normalizePriority raw =
        if raw.type = "message.sent" then 10
        else if raw.type = "internal" then 8
        else if raw.type = "task.scheduled" then 5
        else 5) ∧
    (∀ (c : Option String) (i t : String),
      (createNormalizedEvent raw c i t).priority = normalizePriority raw) := by
  refine ⟨?_, ?_, ?_⟩
  · intro p hp
    simp [normalizePriority, hp]
  · intro hp
    simp only [normalizePriority, hp, DEFAULT_PRIORITY]
    by_cases h1 : raw.type = "message.sent" <;>
      by_cases h2 : raw.type = "internal" <;>
        by_cases h3 : raw.type = "task.scheduled" <;>
          simp_all
  · intro c i t
    rfl

/-- Witness for C6 at a concrete input: type "task.scheduled", no explicit
priority, gives priority 5. -/
theorem priority_explicit_or_type_default_witness :
    normalizePriority
      { source := "scheduler", type := "task.scheduled", payload := [] } = 5 := by
  have h := (priority_explicit_or_type_default
    { source := "scheduler", type := "task.scheduled", payload := [] }).2.1 rfl
  simpa using h

/-- C5: normalization of a "message.sent" payload always yields the message
variant (it is a total function — in the model totality is by construction,
matching the code's absence of any throwing operation), and wrong-typed
fields degrade field by field: a non-string or missing `text` becomes the
empty string, a non-string or missing `userId` becomes "default", while
well-typed fields are preserved. -/
theorem normalize_message_defaults (source : String) (p : JObj) :
    payloadKind (normalizePayload source "message.sent" p) = "message" ∧
    (∀ v : JVal, jGet p "text" = some v → jIsString (some v) = false →
      messageText (normalizePayload source "message.sent" p) = some "") ∧
    (jGet p "text" = none →
      messageText (normalizePayload source "message.sent" p) = some "") ∧
    (∀ s : String, jGet p "text" = some (JVal.str s) →
      messageText (normalizePayload source "message.sent" p) = some s) ∧
    (∀ v : JVal, jGet p "userId" = some v → jIsString (some v) = false →
      messageUserId (normalizePayload source "message.sent" p) = some "default") ∧
    (jGet p "userId" = none →
      messageUserId (normalizePayload source "message.sent" p) = some "default") ∧
    (∀ s : String, jGet p "userId" = some (JVal.str s) →
      messageUserId (normalizePayload source "message.sent" p) = some s) := by
  refine ⟨?_, ?_, ?_, ?_, ?_, ?_, ?_⟩
  · simp [normalizePayload, payloadKind]
  · intro v hv hns
    cases v <;> simp_all [normalizePayload, messageText, jIsString]
  · intro hv
    simp [normalizePayload, messageText, hv]
  · intro s hv
    simp [normalizePayload, messageText, hv]
  · intro v hv hns
    cases v <;> simp_all [normalizePayload, messageUserId, jIsString]
  · intro hv
    simp [normalizePayload, messageUserId, hv]
  · intro s hv
    simp [normalizePayload, messageUserId, hv]

/-- Witness for C5 at a concrete input: payload with a numeric `text` and no
`userId` normalizes to text "" and userId "default". -/
theorem normalize_message_defaults_witness :
    messageText (normalizePayload "api" "message.sent" [("text", JVal.num 7)])
        = some "" ∧
    messageUserId (normalizePayload "api" "message.sent" [("text", JVal.num 7)])
        = some "default" := by
  have h := normalize_message_defaults "api" [("text", JVal.num 7)]
  exact ⟨h.2.1 (JVal.num 7) rfl rfl, h.2.2.2.2.2.1 rfl⟩

/-- C2: with the kill switch engaged, `runHandlersForEvent` returns with the
state untouched — no registered handler runs, for any handlers and any
event (a counter stays at its old value); with the switch disengaged, every
registered handler runs (n counter-incrementing handlers move the counter
up by exactly n, and the event is logged as handled). -/
theorem kill_switch_gates_handlers :
    (∀ (S : Type) (st : RouterState S) (e : NormalizedEvent),
      runHandlersForEvent true st e = st) ∧
    (∀ (n c : Nat) (q : List NormalizedEvent) (seen : List String)
        (proc : Bool) (log : List NormalizedEvent)
        (ad : Option (List NormalizedEvent)) (e : NormalizedEvent),
      (runHandlersForEvent false
          { handlers := List.replicate n incrHandler, hstate := c, queue := q,
            seen := seen, processing := proc, runLog := log, adapter := ad }
          e).hstate = c + n ∧
      (runHandlersForEvent false
          { handlers := List.replicate n incrHandler, hstate := c, queue := q,
            seen := seen, processing := proc, runLog := log, adapter := ad }
          e).runLog = log ++ [e]) := by
  constructor
  · intro S st e
    rfl
  · intro n c q seen proc log ad e
    constructor
    · simp only [runHandlersForEvent, Bool.false_eq_true, if_false]
      exact runHandlerList_replicate_incr n c e
    · rfl

/-- C4: `runHandlersForEvent`'s loop invokes every registered handler, in
registration order, strictly sequentially (each handler receives the state
left by the previous one, so handler n+1 starts only after handler n has
settled), and a throwing handler is caught and does not prevent any later
handler from running: with arbitrary per-handler throw flags, the log still
records every handler index in registration order. -/
theorem handlers_run_in_order_despite_throws
    (plan : List (Nat × Bool)) (e : NormalizedEvent) (log0 : List Nat) :
    runHandlerList (plan.map (fun pr => loggingHandler pr.1 pr.2)) e log0
      = log0 ++ plan.map Prod.fst := by
  induction plan generalizing log0 with
  | nil => simp [runHandlerList]
  | cons hd tl ih =>
      have hstep :
          runHandlerList ((hd :: tl).map (fun pr => loggingHandler pr.1 pr.2)) e log0
            = runHandlerList (tl.map (fun pr => loggingHandler pr.1 pr.2)) e
                (log0 ++ [hd.1]) := rfl
      rw [hstep, ih]
      simp

/-- C8: a poll cycle that observes the reload flag set clears it first and
then invokes the reload callback, exactly once (the action trace is
[clearFlag, invokeReload] and the counter rises by exactly 1, with the flag
left cleared); setting the flag is idempotent, so any number of `setFlag`
calls before the poll still yield exactly one invocation; and a poll with
the flag clear invokes nothing. -/
theorem reload_flag_poll_once (st : ReloadState) :
    reloadPollTick (setReloadFlag st)
      = ({ flag := false, reloadCount := st.reloadCount + 1 },
         [PollAction.clearFlag, PollAction.invokeReload]) ∧
    setReloadFlag (setReloadFlag st) = setReloadFlag st ∧
    (∀ st' : ReloadState, st'.flag = false → reloadPollTick st' = (st', [])) := by
  refine ⟨rfl, rfl, ?_⟩
  intro st' h
  simp [reloadPollTick, h]

/-- Witness for C8 at a concrete state: two `setFlag` calls then one poll
from a clear store invoke the callback exactly once and leave the flag
cleared, and the following poll invokes nothing. -/
theorem reload_flag_poll_once_witness :
    reloadPollTick (setReloadFlag (setReloadFlag ⟨false, 0⟩))
      = (⟨false, 1⟩, [PollAction.clearFlag, PollAction.invokeReload]) ∧
    reloadPollTick ⟨false, 1⟩ = (⟨false, 1⟩, []) := by
  have h := reload_flag_poll_once (⟨false, 0⟩ : ReloadState)
  refine ⟨?_, h.2.2 ⟨false, 1⟩ rfl⟩
  rw [h.2.1, h.1]

/-- C10: `ScheduleService.schedule` fails exactly when the task carries a
(truthy) cron expression that the validator rejects; in every other case —
including a task with neither `execute_at` nor `cron`, or with both — it
persists the task to the store under the fresh UUID, sets the reload flag,
and returns the new id. -/
theorem schedule_throws_iff_invalid_cron (validate : String → Bool)
    (st : ScheduleState) (task : ScheduledTaskInput) (freshId : String) :
    (cronInvalid validate task.cron = true ↔
      ∃ c : String, task.cron = some c ∧ c ≠ "" ∧ validate c = false) ∧
    (scheduleServiceSchedule validate st task freshId
        = Except.error "Invalid cron expression." ↔
      cronInvalid validate task.cron = true) ∧
    (cronInvalid validate task.cron = false →
      scheduleServiceSchedule validate st task freshId
        = Except.ok
            ({ store := st.store ++
                [{ id := freshId, execute_at := task.execute_at,
                   intent := task.intent, context := task.context,
                   cron := task.cron }],
               reloadFlag := true }, freshId)) := by
  refine ⟨?_, ?_, ?_⟩
  · cases hc : task.cron with
    | none => simp [cronInvalid, hc]
    | some c =>
        simp only [cronInvalid, hc, Bool.and_eq_true, bne_iff_ne,
          Bool.not_eq_true', Option.some.injEq]
        constructor
        · rintro ⟨h1, h2⟩
          exact ⟨c, rfl, by simpa using h1, h2⟩
        · rintro ⟨c', hc', h1, h2⟩
          subst hc'
          exact ⟨by simpa using h1, h2⟩
  · unfold scheduleServiceSchedule
    by_cases h : cronInvalid validate task.cron = true
    · simp [h]
    · simp [h]
  · intro h
    unfold scheduleServiceSchedule
    simp [h]

/-- Witness for C10 at concrete inputs: with a validator rejecting
everything, a task with neither `execute_at` nor `cron` is still persisted
and its fresh id returned; a task with cron "bad" is rejected. -/
theorem schedule_throws_iff_invalid_cron_witness :
    scheduleServiceSchedule (fun _ => false) ⟨[], false⟩
        ⟨none, "send report", [], none⟩ "uuid-1"
      = Except.ok
          (⟨[⟨"uuid-1", none, "send report", [], none⟩], true⟩, "uuid-1") ∧
    scheduleServiceSchedule (fun _ => false) ⟨[], false⟩
        ⟨none, "send report", [], some "bad"⟩ "uuid-2"
      = Except.error "Invalid cron expression." := by
  constructor
  · exact (schedule_throws_iff_invalid_cron (fun _ => false) ⟨[], false⟩
      ⟨none, "send report", [], none⟩ "uuid-1").2.2 rfl
  · exact (schedule_throws_iff_invalid_cron (fun _ => false) ⟨[], false⟩
      ⟨none, "send report", [], some "bad"⟩ "uuid-2").2.1.mpr rfl

theorem processQueue_processing_noop {S : Type} (ks : Bool)
    (st : RouterState S) (hp : st.processing = true) :
    processQueue ks st = st := by
  unfold processQueue
  rw [hp]
  simp

theorem processQueue_false_runLog {S : Type} (st : RouterState S)
    (hp : st.processing = false) :
    (processQueue false st).runLog = st.runLog ++ st.queue := by
  unfold processQueue
  rw [hp]
  by_cases hq : st.queue.isEmpty
  · have hnil : st.queue = [] := by rwa [List.isEmpty_iff] at hq
    simp [hq, hnil]
  · simp only [hq, Bool.false_or, Bool.false_eq_true, if_false]
    have h := drainGo_false_runLog (S := S) st.queue.length
      { st with processing := true } (by simp)
    simpa using h

/-- C3: in local mode the queue is re-sorted into descending priority order
by every insertion (the result of `sortDesc` is always descending-sorted);
the processing loop is single-flight (a nested `processQueue` while
`processing` is set does nothing, so draining never overlaps) and drains
one event at a time in queue order; and for three events of priorities
5, 10, 5 enqueued in that order before draining starts, the priority-10
event's handlers run first. -/
theorem local_queue_priority_order :
    (∀ l : List NormalizedEvent, PriorityDesc (sortDesc l)) ∧
    (∀ (S : Type) (ks : Bool) (st : RouterState S), st.processing = true →
      processQueue ks st = st) ∧
    (∀ (S : Type) (st : RouterState S),
      (drainGo false st.queue.length st).runLog = st.runLog ++ st.queue) ∧
    (∀ (S : Type) (a b c : NormalizedEvent) (st : RouterState S),
      st.processing = false →
      a.priority = 5 → b.priority = 10 → c.priority = 5 →
      st.queue = sortDesc (sortDesc (sortDesc ([] ++ [a]) ++ [b]) ++ [c]) →
      (processQueue false st).runLog = st.runLog ++ [b, a, c]) := by
  refine ⟨sortDesc_sorted, ?_, ?_, ?_⟩
  · intro S ks st hp
    exact processQueue_processing_noop ks st hp
  · intro S st
    exact drainGo_false_runLog st.queue.length st (Nat.le_refl _)
  · intro S a b c st hp ha hb hcp hq
    have hq3 : st.queue = [b, a, c] := by
      rw [hq]
      simp [sortDesc, insertDesc, ha, hb, hcp]
    rw [processQueue_false_runLog st hp, hq3]

/-- Witness for C3 at concrete events with priorities [5, 10, 5]: the drain
order is the priority-10 event first. -/
theorem local_queue_priority_order_witness :
    (processQueue false
      ({ handlers := [], hstate := 0, queue :=
            sortDesc (sortDesc (sortDesc ([] ++
              [⟨"e1", "s", "t", NormalizedPayload.internal [], "ts", 5⟩]) ++
              [⟨"e2", "s", "t", NormalizedPayload.internal [], "ts", 10⟩]) ++
              [⟨"e3", "s", "t", NormalizedPayload.internal [], "ts", 5⟩]),
          seen := [], processing := false, runLog := [],
          adapter := none } : RouterState Nat)).runLog
      = [⟨"e2", "s", "t", NormalizedPayload.internal [], "ts", 10⟩,
         ⟨"e1", "s", "t", NormalizedPayload.internal [], "ts", 5⟩,
         ⟨"e3", "s", "t", NormalizedPayload.internal [], "ts", 5⟩] := by
  have h := local_queue_priority_order.2.2.2 Nat
    ⟨"e1", "s", "t", NormalizedPayload.internal [], "ts", 5⟩
    ⟨"e2", "s", "t", NormalizedPayload.internal [], "ts", 10⟩
    ⟨"e3", "s", "t", NormalizedPayload.internal [], "ts", 5⟩
    ({ handlers := [], hstate := 0, queue :=
          sortDesc (sortDesc (sortDesc ([] ++
            [⟨"e1", "s", "t", NormalizedPayload.internal [], "ts", 5⟩]) ++
            [⟨"e2", "s", "t", NormalizedPayload.internal [], "ts", 10⟩]) ++
            [⟨"e3", "s", "t", NormalizedPayload.internal [], "ts", 5⟩]),
        seen := [], processing := false, runLog := [],
        adapter := none } : RouterState Nat)
    rfl rfl rfl rfl rfl
  simpa using h

theorem processQueue_true_noop {S : Type} (st : RouterState S) :
    processQueue true st = st := by
  unfold processQueue
  split
  · rfl
  · simp

theorem dispatch_returns_created_id {S : Type} (ks : Bool) (st : RouterState S)
    (raw : RawDispatchInput) (c : Option String) (i t : String) :
    (dispatch ks st raw c i t).2 = (createNormalizedEvent raw c i t).id := by
  unfold dispatch
  dsimp only
  split
  · rfl
  · split <;> rfl

theorem dispatch_key_seen {S : Type} (ks : Bool) (st : RouterState S)
    (raw : RawDispatchInput) (c : Option String) (i t : String) :
    (dispatch ks st raw c i t).1.seen.contains
      (eventKey (createNormalizedEvent raw c i t)) = true := by
  unfold dispatch
  dsimp only
  cases hk : st.seen.contains (eventKey (createNormalizedEvent raw c i t)) with
  | true =>
      show st.seen.contains (eventKey (createNormalizedEvent raw c i t)) = true
      exact hk
  | false =>
      cases had : st.adapter with
      | some q =>
          show (st.seen ++ [eventKey (createNormalizedEvent raw c i t)]).contains
            (eventKey (createNormalizedEvent raw c i t)) = true
          simp
      | none =>
          show (processQueue ks
            { handlers := st.handlers, hstate := st.hstate,
              queue := sortDesc (st.queue ++ [createNormalizedEvent raw c i t]),
              seen := st.seen ++ [eventKey (createNormalizedEvent raw c i t)],
              processing := st.processing, runLog := st.runLog,
              adapter := none }).seen.contains
            (eventKey (createNormalizedEvent raw c i t)) = true
          rw [processQueue_seen]
          simp

theorem dispatch_duplicate_noop {S : Type} (ks : Bool) (st : RouterState S)
    (raw : RawDispatchInput) (c : Option String) (i t : String)
    (h : st.seen.contains (eventKey (createNormalizedEvent raw c i t)) = true) :
    dispatch ks st raw c i t = (st, (createNormalizedEvent raw c i t).id) := by
  unfold dispatch
  dsimp only
  rw [h]
  simp

/-- The raw dispatch input of the spec's dedup example:
`{source:"api", type:"message.sent", payload:{text:"hi", userId:"default"}}`. -/
def rawHi : RawDispatchInput :=
  { source := "api", type := "message.sent",
    payload := [("text", JVal.str "hi"), ("userId", JVal.str "default")] }

/-- A freshly constructed local-mode router with no handlers and an empty
dedup set. -/
def st0 : RouterState Nat :=
  { handlers := [], hstate := 0, queue := [], seen := [], processing := false,
    runLog := [], adapter := none }

/-- C1 counterexample: dispatching the spec's example input twice within the
dedup window does NOT return the same id both times. `dispatch` creates a
fresh event (fresh `randomUUID()`, here "id1" and "id2") before the dedup
check and returns that fresh event's id even on the duplicate path, so the
two calls return the two distinct fresh ids — the duplicate call does not
return the original event's id. (The dedup itself works: the second call
leaves the router state completely unchanged.) -/
theorem duplicate_dispatch_same_id_counterexample :
    (dispatch false st0 rawHi none "id1" "t1").2 = "id1" ∧
    (dispatch false (dispatch false st0 rawHi none "id1" "t1").1 rawHi none
        "id2" "t2").2 = "id2" ∧
    ("id1" : String) ≠ "id2" ∧
    (dispatch false (dispatch false st0 rawHi none "id1" "t1").1 rawHi none
        "id2" "t2").1 = (dispatch false st0 rawHi none "id1" "t1").1 := by
  refine ⟨rfl, rfl, by decide, rfl⟩

/-- C1 (amended): dispatching the same raw input twice within the dedup
window adds no second queue entry and triggers no handler run for the
duplicate — the second call returns with the router state completely
unchanged. Each call still receives an id, but it is the id of the event
object freshly created for that call (the fresh UUID, since no correlation
id is supplied), not the original event's id. -/
theorem duplicate_dispatch_second_noop (S : Type) (ks : Bool)
    (st : RouterState S) (raw : RawDispatchInput) (i1 i2 t1 t2 : String) :
    (dispatch ks st raw none i1 t1).2 = i1 ∧
    dispatch ks (dispatch ks st raw none i1 t1).1 raw none i2 t2
      = ((dispatch ks st raw none i1 t1).1, i2) := by
  constructor
  · exact dispatch_returns_created_id ks st raw none i1 t1
  · have hseen := dispatch_key_seen ks st raw none i1 t1
    have hkey : eventKey (createNormalizedEvent raw none i2 t2)
        = eventKey (createNormalizedEvent raw none i1 t1) := rfl
    have h := dispatch_duplicate_noop ks (dispatch ks st raw none i1 t1).1
      raw none i2 t2 (by rw [hkey]; exact hseen)
    exact h

/-- C9: the kill switch gates only handler execution, not acceptance:
`dispatch` returns the same id, records the same dedup key, and hands the
same events to a queue adapter whether or not the switch is engaged; and in
local mode a not-yet-seen event dispatched with the switch engaged is still
normalized, deduplicated and enqueued (it sits in the sorted queue) while no
handler runs for it — it is accepted, not rejected or lost. -/
theorem kill_switch_decoupled_from_acceptance (S : Type) (st : RouterState S)
    (raw : RawDispatchInput) (c : Option String) (i t : String) :
    (dispatch true st raw c i t).2 = (dispatch false st raw c i t).2 ∧
    (dispatch true st raw c i t).1.seen = (dispatch false st raw c i t).1.seen ∧
    (dispatch true st raw c i t).1.adapter
      = (dispatch false st raw c i t).1.adapter ∧
    (st.adapter = none →
      st.seen.contains (eventKey (createNormalizedEvent raw c i t)) = false →
      (dispatch true st raw c i t).1.queue
          = sortDesc (st.queue ++ [createNormalizedEvent raw c i t]) ∧
      (dispatch true st raw c i t).1.runLog = st.runLog) := by
  unfold dispatch
  dsimp only
  cases hk : st.seen.contains (eventKey (createNormalizedEvent raw c i t)) with
  | true =>
      exact ⟨rfl, rfl, rfl, fun _ habs => Bool.noConfusion habs⟩
  | false =>
      cases had : st.adapter with
      | some q => exact ⟨rfl, rfl, rfl, fun habs _ => Option.noConfusion habs⟩
      | none =>
          refine ⟨rfl, ?_, ?_, fun _ _ => ?_⟩
          · show (processQueue true _).seen = (processQueue false _).seen
            rw [processQueue_true_noop, processQueue_seen]
          · show (processQueue true _).adapter = (processQueue false _).adapter
            rw [processQueue_true_noop, processQueue_adapter]
          · constructor
            · show (processQueue true _).queue = _
              rw [processQueue_true_noop]
            · show (processQueue true _).runLog = st.runLog
              rw [processQueue_true_noop]

/-- Witness for C9 at a concrete input: dispatched with the switch engaged,
the example event returns the same id as with it disengaged, lands in the
local queue, and no handler loop runs. -/
theorem kill_switch_decoupled_from_acceptance_witness :
    (dispatch true st0 rawHi none "w1" "t").2
        = (dispatch false st0 rawHi none "w1" "t").2 ∧
    (dispatch true st0 rawHi none "w1" "t").1.queue
        = sortDesc ([] ++ [createNormalizedEvent rawHi none "w1" "t"]) ∧
    (dispatch true st0 rawHi none "w1" "t").1.runLog = [] := by
  have h := kill_switch_decoupled_from_acceptance Nat st0 rawHi none "w1" "t"
  have h4 := h.2.2.2 rfl rfl
  exact ⟨h.1, h4.1, h4.2⟩

/-- The spec's example payload with one extra raw field that normalization
discards. -/
def rawHiJunk : RawDispatchInput :=
  { source := "api", type := "message.sent",
    payload := [("text", JVal.str "hi"), ("userId", JVal.str "default"),
                ("junk", JVal.num 1)] }

/-- C7 counterexample: two raw inputs that differ in their raw payload
content (`rawHiJunk` carries an extra "junk" field) but normalize to the
same canonical payload produce the SAME dedup key — `eventKey` stringifies
the event's payload, which at that point is the normalized payload, not the
raw pre-normalization content. -/
theorem dedup_key_raw_content_counterexample :
    rawHi.payload ≠ rawHiJunk.payload ∧
    jGet rawHi.payload "junk" = none ∧
    jGet rawHiJunk.payload "junk" = some (JVal.num 1) ∧
    eventKey (createNormalizedEvent rawHi none "a" "t1")
      = eventKey (createNormalizedEvent rawHiJunk none "b" "t2") := by
  refine ⟨?_, rfl, rfl, rfl⟩
  intro h
  have hlen := congrArg List.length h
  simp [rawHi, rawHiJunk] at hlen

/-- C7 (amended): the dedup key is derived deterministically from `source`,
`type` and a stable serialization of the *normalized* payload — so it is
independent of the event's id and timestamp and identical raw inputs always
produce the same key, but two raw inputs whose raw payloads differ only in
content that normalization discards collide on the same key. -/
theorem dedup_key_from_normalized_payload (r1 r2 : RawDispatchInput)
    (c1 c2 : Option String) (i1 i2 t1 t2 : String) :
    (eventKey (createNormalizedEvent r1 c1 i1 t1)
      = r1.source ++ ":" ++ r1.type ++ ":"
          ++ payloadJson (normalizePayload r1.source r1.type r1.payload)) ∧
    (r1.source = r2.source → r1.type = r2.type →
      normalizePayload r1.source r1.type r1.payload
        = normalizePayload r2.source r2.type r2.payload →
      eventKey (createNormalizedEvent r1 c1 i1 t1)
        = eventKey (createNormalizedEvent r2 c2 i2 t2)) := by
  constructor
  · rfl
  · intro hs ht hp
    show r1.source ++ ":" ++ r1.type ++ ":"
        ++ payloadJson (normalizePayload r1.source r1.type r1.payload)
      = r2.source ++ ":" ++ r2.type ++ ":"
        ++ payloadJson (normalizePayload r2.source r2.type r2.payload)
    rw [hp, hs, ht]

/-- Witness for C7 (amended) at the concrete inputs of the counterexample:
the two raw inputs collide on the same key. -/
theorem dedup_key_from_normalized_payload_witness :
    eventKey (createNormalizedEvent rawHi none "a" "t1")
      = eventKey (createNormalizedEvent rawHiJunk none "b" "t2") :=
  (dedup_key_from_normalized_payload rawHi rawHiJunk none none
    "a" "b" "t1" "t2").2 rfl rfl rfl
